import Mathlib

/-!
# Verification of the sync-http-mcp incremental sync engine

A shallow embedding of the delta-sync planner, the block transport, the
remote file service, the patch-sync engine, and the command executor of the
repository (`src/delta_sync.py`, `src/remote_server.py`), with theorems
settling the frozen claims about them.

Modelling conventions:
* byte strings are `List Nat`;
* digest algorithms (`hashlib.md5`) are abstract functions
  `List Nat → String`; a streaming hasher updated over consecutive chunks
  digests their concatenation, which the embedding realises by digesting the
  flattened chunk list;
* base64 encoding on one end and decoding on the other cancel, so transport
  fields carry raw bytes;
* Python dicts are association lists in insertion order (`dictGet`,
  `dictInsert`); `dict.get(k)` is `dictGet`;
* Python truthiness tests (`if x:`) on strings, bytes, lists and `None` are
  modelled by explicit emptiness / `Option` tests.
-/

namespace SyncMCP

/-- Byte strings. -/
abbrev Bytes := List Nat

/-- Protocol block size in bytes: `DEFAULT_BLOCK_SIZE = 4096` in
`delta_sync.py`, and the hard-coded `block_size = 4096` of
`generate_file_metadata` / `process_delta_content` in `remote_server.py`. -/
def BLOCK_SIZE : Nat := 4096

/-- Fuel-driven worker for `chunksOf` (structural recursion on the fuel so
that the kernel can evaluate it). -/
def chunksOfAux (k : Nat) : Nat → Bytes → List Bytes
  | 0, _ => []
  | _ + 1, [] => []
  | fuel + 1, b :: bs => (b :: bs).take k :: chunksOfAux k fuel ((b :: bs).drop k)

/-- Split a byte string into consecutive blocks of `k` bytes, the last block
possibly short.  Models the `f.read(block_size)` loop of
`FileMetadata.from_file` (delta_sync.py lines 79-94) and the slicing loop of
`generate_file_metadata` (remote_server.py lines 1165-1175). -/
def chunksOf (k : Nat) (bs : Bytes) : List Bytes := chunksOfAux k bs.length bs

/-- The `i`-th block of a byte string: `f.seek(i * k); f.read(k)`. -/
def chunkAt (k : Nat) (bs : Bytes) (i : Nat) : Bytes := (bs.drop (i * k)).take k

/-- `dict.get(key)`: first binding of `key` in an insertion-ordered
association list. -/
def dictGet {κ α : Type} [BEq κ] (m : List (κ × α)) (key : κ) : Option α :=
  (m.find? fun kv => kv.1 == key).map fun kv => kv.2

/-- `dict[key] = v`: overwrite the existing binding in place, else append. -/
def dictInsert {κ α : Type} [BEq κ] (m : List (κ × α)) (key : κ) (v : α) :
    List (κ × α) :=
  if m.any fun kv => kv.1 == key then
    m.map fun kv => if kv.1 == key then (key, v) else kv
  else m ++ [(key, v)]

/-- Split a character list at `/` separators (worker for `splitSlash`). -/
def splitSlashAux : List Char → List Char → List String
  | [], acc => [String.mk acc.reverse]
  | c :: rest, acc =>
      if c = '/' then String.mk acc.reverse :: splitSlashAux rest []
      else splitSlashAux rest (c :: acc)

/-- `s.split("/")` on the character level (structurally recursive so the
kernel can evaluate it). -/
def splitSlash (s : String) : List String := splitSlashAux s.data []

/-- Whether the path string begins with `/`. -/
def isAbsolute (s : String) : Bool :=
  match s.data with
  | [] => false
  | c :: _ => c = '/'

/-- Join path components with `/` (the character-level counterpart of
`"/".join(...)`). -/
def joinSlash : List String → String
  | [] => ""
  | [c] => c
  | c :: rest => c ++ "/" ++ joinSlash rest

/-- Models `str(pathlib.PurePosixPath(s))`: split on `/`, drop empty and `.`
components (keeping `..`), preserve a leading `/`; the empty purepath prints
as `.`.  (Used by `FileMetadata.from_file`, which stores `str(path_obj)`.) -/
def pathNormalize (s : String) : String :=
  let comps := (splitSlash s).filter fun c => c != "" && c != "."
  let body := joinSlash comps
  if isAbsolute s then "/" ++ body
  else if comps = [] then "." else body

/-- Eliminate `..` components against already-accumulated ancestor
components (symlink-free `Path.resolve`); a `..` at the root is dropped. -/
def resolveComponents : List String → List String → List String
  | [], acc => acc.reverse
  | c :: rest, acc =>
      if c = ".." then resolveComponents rest acc.tail
      else resolveComponents rest (c :: acc)

/-- Models `str(pathlib.Path(s).resolve())` with no symlinks involved:
absolutise against the (absolute) working directory `cwd`, then normalise
away empty, `.` and `..` components.  (Used by `get_local_metadata`.) -/
def pathResolve (cwd s : String) : String :=
  let absStr := if isAbsolute s then s else cwd ++ "/" ++ s
  let comps := (splitSlash absStr).filter fun c => c != "" && c != "."
  "/" ++ joinSlash (resolveComponents comps [])

/-- `FileMetadata` (delta_sync.py lines 32-119): the client-side file
fingerprint.  `blocks` is the insertion-ordered dict `{block index → hex
digest}`. -/
structure FileMetadata where
  path : String
  mtime : Int
  size : Nat
  full_hash : String
  blocks : List (Nat × String)
deriving DecidableEq, Repr

/-- `FileMetadata.from_file` (delta_sync.py lines 53-98) on a file whose
content is `content` and stat mtime is `mtime`: the stored path is
`str(Path(file_path))` (normalised but NOT resolved), the full hash is the
streaming digest over the read chunks (= digest of their concatenation), and
the block dict maps each chunk index to its digest in index order. -/
def FileMetadata.from_file (md5 : Bytes → String) (file_path : String)
    (mtime : Int) (content : Bytes) (block_size : Nat) : FileMetadata :=
  { path := pathNormalize file_path
    mtime := mtime
    size := content.length
    full_hash := md5 (chunksOf block_size content).flatten
    blocks := (chunksOf block_size content).enum.map fun ic => (ic.1, md5 ic.2) }

/-- `MetadataCache` (delta_sync.py lines 122-261): two path-keyed fingerprint
dicts. -/
structure MetadataCache where
  local_cache : List (String × FileMetadata)
  remote_cache : List (String × FileMetadata)
deriving DecidableEq, Repr

/-- `MetadataCache.update_local_metadata` (delta_sync.py lines 185-202):
recompute the fingerprint with `FileMetadata.from_file` and store it under
`metadata.path`, i.e. under `str(Path(file_path))` — the normalised, not
resolved, spelling. -/
def MetadataCache.update_local_metadata (cache : MetadataCache)
    (md5 : Bytes → String) (file_path : String) (mtime : Int) (content : Bytes)
    (block_size : Nat) : MetadataCache × FileMetadata :=
  let metadata := FileMetadata.from_file md5 file_path mtime content block_size
  ({ cache with
      local_cache := dictInsert cache.local_cache metadata.path metadata },
   metadata)

/-- `MetadataCache.get_local_metadata` (delta_sync.py lines 213-215): look up
`str(Path(file_path).resolve())` — the fully resolved absolute spelling. -/
def MetadataCache.get_local_metadata (cache : MetadataCache)
    (cwd file_path : String) : Option FileMetadata :=
  dictGet cache.local_cache (pathResolve cwd file_path)

/-- The condition under which `DeltaSyncCalculator.calculate_delta`
re-fingerprints the local file (delta_sync.py lines 291-294): no cached local
entry, or the file no longer exists, or its on-disk mtime is newer than the
cached one. -/
def calculate_delta_refreshes (cache : MetadataCache) (cwd file_path : String)
    (fileOnDisk : Bool) (diskMtime : Int) : Bool :=
  match cache.get_local_metadata cwd file_path with
  | none => true
  | some m => !fileOnDisk || decide (m.mtime < diskMtime)

/-- The delta plan produced by `DeltaSyncCalculator.calculate_delta`
(delta_sync.py lines 278-333). -/
structure DeltaInfo where
  type : String
  full_hash : String
  size : Nat
  blocks : List Nat
deriving DecidableEq, Repr

/-- The planner decision of `DeltaSyncCalculator.calculate_delta`
(delta_sync.py lines 304-333), taking the local fingerprint and the cached
remote fingerprint (`None` when the remote path has no cache entry):

* no remote entry → `full` with all local block indices;
* digests differ → `delta` with `changed_blocks = list(range(len(local_meta.blocks)))`
  — ALL local block indices (line 316; the remote block digests are not
  consulted);
* digests equal → `none` with no blocks. -/
def calculate_delta (local_meta : FileMetadata) :
    Option FileMetadata → DeltaInfo
  | none =>
      { type := "full", full_hash := local_meta.full_hash
        size := local_meta.size
        blocks := List.range local_meta.blocks.length }
  | some remote_meta =>
      if remote_meta.full_hash ≠ local_meta.full_hash then
        { type := "delta", full_hash := local_meta.full_hash
          size := local_meta.size
          blocks := List.range local_meta.blocks.length }
      else
        { type := "none", full_hash := local_meta.full_hash
          size := local_meta.size
          blocks := [] }

/-- Spec-side definition for claim C1 (spec §4.3): the block-index set the
specification asserts for a digest-mismatch plan — the indices `i` of the
local fingerprint whose block digest differs from the remote digest at `i`,
or that lie at or beyond the remote block count.  Defined from the spec's
words, to be compared against what `calculate_delta` actually returns. -/
def claimedDeltaIndices (local_meta remote_meta : FileMetadata) : List Nat :=
  (List.range local_meta.blocks.length).filter fun i =>
    (dictGet local_meta.blocks i != dictGet remote_meta.blocks i) ||
      decide (remote_meta.blocks.length ≤ i)

/-- `DeltaSyncCalculator.extract_blocks` (delta_sync.py lines 335-355): for
each requested index seek to `index * block_size` and read one block; blocks
that read back empty (`if data:` falsy) are skipped.  The resulting dict is
in request order (the source only ever passes duplicate-free index lists). -/
def extract_blocks (block_size : Nat) (content : Bytes)
    (block_indices : List Nat) : List (Nat × Bytes) :=
  block_indices.filterMap fun i =>
    let data := (content.drop (i * block_size)).take block_size
    if data = [] then none else some (i, data)

/-- The `DeltaContent` transport payload (remote_server.py lines 150-157).
`blocks` maps block indices to their (decoded) bytes; `content` is the
(decoded) whole-file body for `full` transfers. -/
structure DeltaContent where
  path : String
  delta_type : String
  full_hash : String
  size : Nat
  blocks : Option (List (Nat × Bytes)) := none
  content : Option Bytes := none
deriving DecidableEq, Repr

/-- `create_delta_payload` (delta_sync.py lines 378-419) on a local file with
content `local_content`: a `none` plan carries no body; a plan with a
non-empty index list gets a `blocks` field extracted with the default
4096-byte block size (the fresh `DeltaSyncCalculator` at line 403); a `full`
plan whose payload got no `blocks` key carries the whole content. -/
def create_delta_payload (local_content : Bytes) (remote_path : String)
    (delta_info : DeltaInfo) : DeltaContent :=
  let base : DeltaContent :=
    { path := remote_path, delta_type := delta_info.type
      full_hash := delta_info.full_hash, size := delta_info.size }
  if delta_info.type = "none" then base
  else
    let withBlocks :=
      if delta_info.blocks ≠ [] then
        { base with
            blocks := some (extract_blocks BLOCK_SIZE local_content
                              delta_info.blocks) }
      else base
    if delta_info.type = "full" ∧ withBlocks.blocks = none then
      { withBlocks with content := some local_content }
    else withBlocks

/-- The server-side fingerprint produced by `generate_file_metadata`
(remote_server.py lines 1129-1191); its block dict is keyed by
`str(block_index)`. -/
structure ServerMetadata where
  path : String
  mtime : Int
  size : Nat
  full_hash : String
  blocks : List (String × String)
deriving DecidableEq, Repr

/-- `generate_file_metadata` (remote_server.py lines 1129-1191) on a file at
`file_path` whose bytes are `content` and whose stat mtime is `mtime` (the
stat size equals `len(content)` at every call site, since the function is
invoked right after the content is written or read).  The full hash is the
streaming digest over the 4096-byte slices (= digest of their
concatenation). -/
def generate_file_metadata (md5 : Bytes → String) (file_path : String)
    (mtime : Int) (content : Bytes) : ServerMetadata :=
  { path := file_path
    mtime := mtime
    size := content.length
    full_hash := md5 (chunksOf BLOCK_SIZE content).flatten
    blocks := (chunksOf BLOCK_SIZE content).enum.map fun ic =>
      (toString ic.1, md5 ic.2) }

/-- One iteration of the block-overlay loop of `process_delta_content`
(remote_server.py lines 1290-1302): write `data` at offset
`index * 4096`, zero-extending the array first when the write would end past
its current end. -/
def overlayBlock (arr : Bytes) (iv : Nat × Bytes) : Bytes :=
  let start := iv.1 * BLOCK_SIZE
  let endPos := start + iv.2.length
  let arr2 := if arr.length < endPos then
      arr ++ List.replicate (endPos - arr.length) 0
    else arr
  arr2.take start ++ iv.2 ++ arr2.drop endPos

/-- The whole overlay loop, in dict iteration (= insertion) order. -/
def applyDeltaBlocks (arr : Bytes) (blocks : List (Nat × Bytes)) : Bytes :=
  blocks.foldl overlayBlock arr

/-- Result dict of `process_delta_content` (messages translated from the
source's Chinese literals). -/
inductive DeltaResult where
  | ok (path message : String) (metadata : ServerMetadata)
  | error (path message : String)
deriving DecidableEq, Repr

def DeltaResult.isSuccess : DeltaResult → Bool
  | .ok _ _ _ => true
  | .error _ _ => false

def DeltaResult.metadata? : DeltaResult → Option ServerMetadata
  | .ok _ _ m => some m
  | .error _ _ => none

/-- `process_delta_content` (remote_server.py lines 1194-1332) over the
current target-file content (`none` when the file does not exist) and the
server's `file_metadata_cache` entry for the path.  Returns the result dict
and the resulting file content.  Truthiness: `if delta_content.content:` and
`if not delta_content.blocks:` treat empty bytes / an absent or empty dict as
falsy.  (`map_remote_path` is the identity outside test mode and is omitted;
the mtime of the stat following each write is the parameter `mtime`.) -/
def process_delta_content (md5 : Bytes → String) (mtime : Int)
    (file : Option Bytes) (cached : Option ServerMetadata)
    (dc : DeltaContent) : DeltaResult × Option Bytes :=
  if dc.delta_type = "none" then
    match cached with
    | some m => (.ok dc.path "file unchanged" m, file)
    | none =>
      match file with
      | some c =>
          (.ok dc.path "file unchanged"
            (generate_file_metadata md5 dc.path mtime c), file)
      | none => (.error dc.path "file missing and no content supplied", file)
  else if dc.delta_type = "full" then
    match dc.content with
    | some c =>
      if c = [] then (.error dc.path "full mode but no content supplied", file)
      else
        (.ok dc.path "file fully updated"
          (generate_file_metadata md5 dc.path mtime c), some c)
    | none => (.error dc.path "full mode but no content supplied", file)
  else if dc.delta_type = "delta" then
    match dc.blocks with
    | none => (.error dc.path "delta mode but no block data supplied", file)
    | some blocks =>
      if blocks = [] then
        (.error dc.path "delta mode but no block data supplied", file)
      else
        match file with
        | none => (.error dc.path "file missing, cannot apply delta", file)
        | some content =>
          let newContent := applyDeltaBlocks content blocks
          (.ok dc.path "file delta updated"
            (generate_file_metadata md5 dc.path mtime newContent),
           some newContent)
  else (.error dc.path "unsupported sync type", file)

/-- The full client-to-server delta path of claim C2: fingerprint local
content `B` (at `lp`) and remote content `A` (cached under `rp`), plan with
`calculate_delta`, pack with `create_delta_payload`, and apply with
`process_delta_content` to a server file currently containing `A` (with no
server-cached metadata for the path). -/
def delta_sync_pipeline (md5 : Bytes → String) (lp rp : String)
    (lmt rmt mt : Int) (A B : Bytes) : DeltaResult × Option Bytes :=
  let local_fp := FileMetadata.from_file md5 lp lmt B BLOCK_SIZE
  let remote_fp := FileMetadata.from_file md5 rp rmt A BLOCK_SIZE
  let payload := create_delta_payload B rp (calculate_delta local_fp (some remote_fp))
  process_delta_content md5 mt (some A) none payload

/-- Result of `write_file_content`: either the success dict with the
recomputed fingerprint, or the HTTP 400 checksum-mismatch rejection. -/
inductive WriteResult where
  | ok (path : String) (metadata : ServerMetadata)
  | checksumMismatch (expected actual : String)
deriving DecidableEq, Repr

/-- `write_file_content` (remote_server.py lines 971-1013) over the current
target content and the decoded request body: the checksum is verified only
when the `checksum` field is truthy (`if file_content.checksum:` — `None`
AND the empty string skip verification); a mismatch raises before the write,
leaving the file unchanged; otherwise the content is written and the
fingerprint recomputed from it. -/
def write_file_content (md5 : Bytes → String) (mtime : Int)
    (file : Option Bytes) (path : String) (content : Bytes)
    (checksum : Option String) : WriteResult × Option Bytes :=
  let performWrite : WriteResult × Option Bytes :=
    (.ok path (generate_file_metadata md5 path mtime content), some content)
  match checksum with
  | some expected =>
    if expected = "" then performWrite
    else if md5 content ≠ expected then
      (.checksumMismatch expected (md5 content), file)
    else performWrite
  | none => performWrite

/-- File-system operations relevant to `MetadataCache.save_cache`. -/
inductive FsOp where
  | openTrunc (path : String)
  | writeStr (path : String) (data : String)
  | rename (src dst : String)
deriving DecidableEq, Repr

/-- File-system contents: path → file content (none = absent). -/
def FsState := String → Option String

/-- Effect of one operation: `open(p, 'w')` creates/truncates `p`;
a write appends to it; a rename moves `src` over `dst`. -/
def applyFsOp (fs : FsState) (op : FsOp) : FsState :=
  match op with
  | .openTrunc p => fun q => if q = p then some "" else fs q
  | .writeStr p d => fun q => if q = p then some (((fs p).getD "") ++ d) else fs q
  | .rename src dst => fun q =>
      if q = dst then fs src else if q = src then none else fs q

/-- `MetadataCache.save_cache` (delta_sync.py lines 164-183) as its sequence
of file-system operations: `with open(self.cache_file, 'w') as f:
json.dump(data, f, indent=2)` opens the cache file itself with truncation and
writes the serialised snapshot into it directly.  No temporary file and no
rename appear anywhere in the function. -/
def save_cache_ops (cache_file serialized : String) : List FsOp :=
  [.openTrunc cache_file, .writeStr cache_file serialized]

/-- Every file-system state reached while running `ops` from `fs`, the
initial and final states included. -/
def fsStates (fs : FsState) (ops : List FsOp) : List FsState :=
  ops.scanl applyFsOp fs

/-- Spec-side definition for claim C7, from the spec's words "atomic rewrite
of the cache file (temp file + rename)": some rename from a distinct
temporary file onto the target occurs, and no operation opens or writes the
target path directly. -/
def atomicTempRename (target : String) (ops : List FsOp) : Prop :=
  (∃ tmp, tmp ≠ target ∧ FsOp.rename tmp target ∈ ops) ∧
    ∀ op ∈ ops, op ≠ FsOp.openTrunc target ∧ ∀ d, op ≠ FsOp.writeStr target d

/-- One element of the `binary_files` request list (remote_server.py
lines 437-457): `binary_file.get("path")` / `binary_file.get("content")`.
Content strings stand for their decoded payloads (decoding is modelled as
total). -/
structure BinaryFileEntry where
  path : Option String
  content : Option String
deriving DecidableEq, Repr

/-- The binary-file paths the loop at remote_server.py lines 437-457 writes
into the working tree: entries whose path and content are both present and
truthy (`if not file_path or not content: continue`). -/
def writtenBinaryPaths (binary_files : List BinaryFileEntry) : List String :=
  binary_files.filterMap fun bf =>
    match bf.path, bf.content with
    | some p, some c => if p = "" ∨ c = "" then none else some p
    | _, _ => none

/-- Input state of one `apply_git_patch` call: the request fields plus the
repository facts the source consults. -/
structure GitPatchInput where
  gitAvailable : Bool
  repoExists : Bool
  patchText : Option String
  binary_files : List BinaryFileEntry
  base_commit : Option String
  baseCommitKnown : Bool
  isDirty : Bool
  patchApplies : Bool
deriving DecidableEq, Repr

/-- The error outcomes of `apply_git_patch`.  `dirtyTree` is never produced
by the source (it is included so the refusal claimed by the specification can
be stated); `uncaughtNameError` is the generic failure the handler at
remote_server.py line 538 makes of the `NameError` raised at line 460. -/
inductive PatchError where
  | gitUnavailable
  | notAGitRepo
  | patchDecodeFailed
  | dirtyTree
  | unknownBase
  | uncaughtNameError
deriving DecidableEq, Repr

inductive PatchResult where
  | ok (commit : String)
  | error (e : PatchError)
deriving DecidableEq, Repr

/-- Outcome of `apply_git_patch`: its return value plus its effects on the
repository (commits created, binary files written into the tree). -/
structure GitPatchOutcome where
  result : PatchResult
  commitMessages : List String
  binariesWritten : List String
deriving DecidableEq, Repr

/-- `apply_git_patch` (remote_server.py lines 393-545).  After the guards
(git availability, repository presence, patch decoding) and the binary-file
loop, line 460 evaluates `tempfile.NamedTemporaryFile(...)`.  The module
never binds `tempfile`: the module-level imports (lines 11-22 plus git /
git_file_state / aiofiles / uvicorn / fastapi / pydantic) do not include it,
and the `import tempfile` at line 560 is local to the function `apply_patch`.
The name lookup therefore raises `NameError`, which the `except Exception`
handler at line 538 converts into a generic error result.  Lines 464-536 —
the base-commit check, the dirty-tree auto-commit (`git add -A; git commit -m
"Auto-commit before applying patch"`), the patch application and the "Apply
sync patch" commit — are unreachable (and the success test at line 493 reads
`result["status"]` although `apply_patch` returns the key "success"). -/
def apply_git_patch (inp : GitPatchInput) : GitPatchOutcome :=
  if ¬ inp.gitAvailable then
    { result := .error .gitUnavailable, commitMessages := [], binariesWritten := [] }
  else if ¬ inp.repoExists then
    { result := .error .notAGitRepo, commitMessages := [], binariesWritten := [] }
  else
    match inp.patchText with
    | none =>
        { result := .error .patchDecodeFailed, commitMessages := []
          binariesWritten := [] }
    | some _ =>
        { result := .error .uncaughtNameError, commitMessages := []
          binariesWritten := writtenBinaryPaths inp.binary_files }

/-- The pydantic model `GitConflictFile` (remote_server.py lines 219-224):
fields `path`, `local_content`, `remote_content`, `merged_content`.
`apply_patch` records conflicts by filling `remote_content` with the server's
current bytes (lines 596-599). -/
structure GitConflictFile where
  path : String
  local_content : Option String := none
  remote_content : Option String := none
  merged_content : Option String := none
deriving DecidableEq, Repr

/-- A Python attribute value of a `GitConflictFile` field. -/
inductive PyAttr where
  | str (s : String)
  | optStr (s : Option String)
deriving DecidableEq, Repr

/-- Attribute access on the pydantic model: the four declared fields yield
their values; any other name raises `AttributeError` (`none`). -/
def GitConflictFile.getAttr (cf : GitConflictFile) (name : String) :
    Option PyAttr :=
  if name = "path" then some (.str cf.path)
  else if name = "local_content" then some (.optStr cf.local_content)
  else if name = "remote_content" then some (.optStr cf.remote_content)
  else if name = "merged_content" then some (.optStr cf.merged_content)
  else none

/-- Result of `get_conflicts` (messages translated from the source's Chinese
literals). -/
inductive ConflictsResult where
  | ok (conflicts : List (String × PyAttr))
  | error (message : String)
deriving DecidableEq, Repr

/-- The conflict-listing loop of `get_conflicts` (remote_server.py lines
856-867): entries whose file no longer exists are skipped; for the rest the
dict `{"path": cf.path, "content": cf.content}` is built.  The attribute
access `cf.content` is performed through `getAttr`; `none` means the
`AttributeError` aborts the loop. -/
def conflictEntriesLoop (fileExists : String → Bool) :
    List GitConflictFile → Option (List (String × PyAttr))
  | [] => some []
  | cf :: rest =>
    if fileExists cf.path then
      match cf.getAttr "content" with
      | none => none
      | some v =>
        match conflictEntriesLoop fileExists rest with
        | none => none
        | some tail => some ((cf.path, v) :: tail)
    else conflictEntriesLoop fileExists rest

/-- `get_conflicts` (remote_server.py lines 829-876) over the repository
presence, the recorded `conflict_files` entry for the repository (`none` when
the key is absent), and file existence on disk.  An exception raised inside
the loop is caught at line 874 and turned into an error result. -/
def get_conflicts (repoExists : Bool)
    (recorded : Option (List GitConflictFile))
    (fileExists : String → Bool) : ConflictsResult :=
  if ¬ repoExists then .error "target path is not a git repository"
  else
    match recorded with
    | none => .ok []
    | some cfs =>
      if cfs = [] then .ok []
      else
        match conflictEntriesLoop fileExists cfs with
        | some entries => .ok entries
        | none => .error "failed to get conflict info: AttributeError: content"

/-- The two output streams of a command process. -/
inductive StreamName where
  | stdout
  | stderr
deriving DecidableEq, Repr

/-- One line appended by a stream-reader task. -/
structure OutputLine where
  stream : StreamName
  content : String
deriving DecidableEq, Repr

/-- Observable behaviour of one spawned command: the spawn fails
(`create_subprocess_shell` or `os.makedirs` raises), or the process exits
naturally within the timeout budget with an exit code, or it outlives the
timeout (`diesOnTerminate` tells whether `terminate()` ends it during the
one-second grace sleep, before the `returncode is None` test at line 1081).
`lines` is the interleaving, in append order, of the lines the two reader
tasks drain; per-stream order is preserved by construction. -/
inductive ProcessBehavior where
  | spawnFailure (errMsg : String)
  | exits (code : Int) (lines : List OutputLine)
  | outlivesTimeout (diesOnTerminate : Bool) (lines : List OutputLine)
deriving DecidableEq, Repr

/-- The mutable command record of `active_commands` (timestamps reduced to
the flag `endTimeSet`). -/
structure CommandRecord where
  status : String
  exit_code : Option Int
  output : String
  endTimeSet : Bool
deriving DecidableEq, Repr

/-- The record `execute_command` creates on submission (remote_server.py
lines 1025-1034). -/
def initialCommandRecord : CommandRecord :=
  { status := "pending", exit_code := none, output := "", endTimeSet := false }

/-- Messages broadcast over the notification bus by the command executor. -/
inductive WsMessage where
  | commandOutput (command_id : String) (stream : StreamName) (content : String)
  | commandCompleted (command_id : String) (status : String)
      (exit_code : Option Int)
deriving DecidableEq, Repr

/-- Process-control actions taken on timeout escalation. -/
inductive ProcAction where
  | terminate
  | kill
deriving DecidableEq, Repr

/-- The concatenation the reader tasks append into `output`. -/
def outputConcat (lines : List OutputLine) : String :=
  lines.foldl (fun acc l => acc ++ l.content) ""

/-- The `command_output` broadcasts of `read_stream` (remote_server.py lines
1106-1125), one per appended line, in append order. -/
def outputMessages (cid : String) (lines : List OutputLine) : List WsMessage :=
  lines.map fun l => .commandOutput cid l.stream l.content

/-- `run_command` (remote_server.py lines 1042-1104) over a process
behaviour: the final command record, the ordered broadcast trace, and the
process-control actions.

* natural exit (line 1073-1075): `exit_code` and state `completed` are set,
  then — after `asyncio.gather` on both readers — `command_completed` is
  broadcast with the recorded state and exit code, after every
  `command_output` broadcast;
* timeout (lines 1076-1082): state `timeout` is set, the process is
  terminated and, if still alive after the ≈1 s sleep, killed; `exit_code`
  is NOT assigned in this branch, so the broadcast carries the record's
  prior value;
* any exception, spawn failure included (lines 1098-1103): state `failed`,
  the error text is appended to the output buffer, and NOTHING is
  broadcast. -/
def run_command (cid : String) (rec : CommandRecord) :
    ProcessBehavior → CommandRecord × List WsMessage × List ProcAction
  | .spawnFailure msg =>
      ({ rec with status := "failed"
                  output := rec.output ++ "\nexecution error: " ++ msg
                  endTimeSet := true },
       [], [])
  | .exits code lines =>
      ({ rec with status := "completed", exit_code := some code
                  output := rec.output ++ outputConcat lines
                  endTimeSet := true },
       outputMessages cid lines ++ [.commandCompleted cid "completed" (some code)],
       [])
  | .outlivesTimeout dies lines =>
      ({ rec with status := "timeout"
                  output := rec.output ++ outputConcat lines
                  endTimeSet := true },
       outputMessages cid lines ++ [.commandCompleted cid "timeout" rec.exit_code],
       .terminate :: if dies then [] else [.kill])

/-! ## Helper lemmas on chunking -/

theorem chunksOfAux_congr (k : Nat) (hk : 0 < k) :
    ∀ (fuel₁ fuel₂ : Nat) (bs : Bytes), bs.length ≤ fuel₁ → bs.length ≤ fuel₂ →
      chunksOfAux k fuel₁ bs = chunksOfAux k fuel₂ bs := by
  intro fuel₁
  induction fuel₁ with
  | zero =>
    intro fuel₂ bs h₁ h₂
    have hbs : bs = [] := List.eq_nil_of_length_eq_zero (Nat.le_zero.mp h₁)
    subst hbs
    cases fuel₂ <;> rfl
  | succ f ih =>
    intro fuel₂ bs h₁ h₂
    cases bs with
    | nil => cases fuel₂ <;> rfl
    | cons b t =>
      cases fuel₂ with
      | zero => simp at h₂
      | succ f₂ =>
        simp only [List.length_cons] at h₁ h₂
        simp only [chunksOfAux]
        congr 1
        apply ih
        · simp only [List.length_drop, List.length_cons]
          omega
        · simp only [List.length_drop, List.length_cons]
          omega

theorem chunksOf_nil (k : Nat) : chunksOf k [] = [] := rfl

theorem chunksOf_cons (k : Nat) (hk : 0 < k) (b : Nat) (t : Bytes) :
    chunksOf k (b :: t) = (b :: t).take k :: chunksOf k ((b :: t).drop k) := by
  show chunksOfAux k ((b :: t).length) (b :: t) = _
  simp only [List.length_cons, chunksOfAux]
  congr 1
  exact chunksOfAux_congr k hk t.length ((b :: t).drop k).length _
    (by simp only [List.length_drop, List.length_cons]; omega) le_rfl

theorem chunksOf_ne_nil (k : Nat) (b : Nat) (t : Bytes) :
    chunksOf k (b :: t) ≠ [] := by
  show chunksOfAux k ((b :: t).length) (b :: t) ≠ []
  simp only [List.length_cons, chunksOfAux]
  simp

theorem flatten_chunksOf (k : Nat) (hk : 0 < k) :
    ∀ bs : Bytes, (chunksOf k bs).flatten = bs
  | [] => rfl
  | b :: t => by
    rw [chunksOf_cons k hk, List.flatten_cons,
        flatten_chunksOf k hk ((b :: t).drop k)]
    exact List.take_append_drop k (b :: t)
termination_by bs => bs.length
decreasing_by simp only [List.length_drop, List.length_cons]; omega

theorem le_length_chunksOf_mul (k : Nat) (hk : 0 < k) :
    ∀ bs : Bytes, bs.length ≤ (chunksOf k bs).length * k
  | [] => by simp [chunksOf_nil]
  | b :: t => by
    rw [chunksOf_cons k hk]
    have ih := le_length_chunksOf_mul k hk ((b :: t).drop k)
    simp only [List.length_drop, List.length_cons] at ih ⊢
    have hmul : ((chunksOf k ((b :: t).drop k)).length + 1) * k
        = (chunksOf k ((b :: t).drop k)).length * k + k := by ring
    rw [hmul]
    omega
termination_by bs => bs.length
decreasing_by simp only [List.length_drop, List.length_cons]; omega

theorem chunksOf_index_lt (k : Nat) (hk : 0 < k) :
    ∀ (bs : Bytes) (i : Nat), i < (chunksOf k bs).length → i * k < bs.length
  | [], i, hi => by simp [chunksOf_nil] at hi
  | b :: t, 0, hi => by simp
  | b :: t, i + 1, hi => by
    rw [chunksOf_cons k hk] at hi
    simp only [List.length_cons] at hi
    have ih := chunksOf_index_lt k hk ((b :: t).drop k) i (by omega)
    simp only [List.length_drop, List.length_cons] at ih
    have hmul : (i + 1) * k = i * k + k := by ring
    simp only [List.length_cons]
    rw [hmul]
    omega
termination_by bs _ _ => bs.length
decreasing_by simp only [List.length_drop, List.length_cons]; omega

theorem chunkAt_ne_nil (k : Nat) (hk : 0 < k) (bs : Bytes) (i : Nat)
    (hi : i < (chunksOf k bs).length) : chunkAt k bs i ≠ [] := by
  have h := chunksOf_index_lt k hk bs i hi
  intro hnil
  have hlen : (chunkAt k bs i).length = 0 := by rw [hnil]; rfl
  simp only [chunkAt, List.length_take, List.length_drop] at hlen
  omega

theorem extract_blocks_all (k : Nat) (hk : 0 < k) (B : Bytes) (l : List Nat)
    (h : ∀ i ∈ l, i < (chunksOf k B).length) :
    extract_blocks k B l = l.map fun i => (i, chunkAt k B i) := by
  induction l with
  | nil => rfl
  | cons a t ih =>
    have ha : chunkAt k B a ≠ [] :=
      chunkAt_ne_nil k hk B a (h a (List.mem_cons_self a t))
    have ht := ih fun i hi => h i (List.mem_cons_of_mem a hi)
    simp only [chunkAt] at ha
    simp only [extract_blocks, List.filterMap_cons, List.map_cons] at ht ⊢
    rw [if_neg ha, ht]
    rfl

/-! ## Claim C1: the digest-mismatch plan -/

/-- Claim C1 is FALSE on the code: with a cached remote fingerprint whose
whole digest differs from the local one in exactly the second of two blocks,
`calculate_delta` plans a `delta` carrying BOTH block indices, while the
claimed index set (different or out-of-range blocks) is exactly `[1]`; in
particular the plan does not carry exactly one index when exactly one block
differs. -/
theorem calculate_delta_not_minimal_cex :
    (FileMetadata.mk "f" 0 8192 "hA" [(0, "b0"), (1, "c1")]).full_hash ≠
      (FileMetadata.mk "f" 0 8192 "hB" [(0, "b0"), (1, "b1")]).full_hash ∧
    (calculate_delta (FileMetadata.mk "f" 0 8192 "hB" [(0, "b0"), (1, "b1")])
        (some (FileMetadata.mk "f" 0 8192 "hA" [(0, "b0"), (1, "c1")]))).type =
      "delta" ∧
    claimedDeltaIndices (FileMetadata.mk "f" 0 8192 "hB" [(0, "b0"), (1, "b1")])
        (FileMetadata.mk "f" 0 8192 "hA" [(0, "b0"), (1, "c1")]) = [1] ∧
    (calculate_delta (FileMetadata.mk "f" 0 8192 "hB" [(0, "b0"), (1, "b1")])
        (some (FileMetadata.mk "f" 0 8192 "hA" [(0, "b0"), (1, "c1")]))).blocks =
      [0, 1] ∧
    ¬ ((calculate_delta (FileMetadata.mk "f" 0 8192 "hB" [(0, "b0"), (1, "b1")])
          (some (FileMetadata.mk "f" 0 8192 "hA" [(0, "b0"), (1, "c1")]))).blocks ⊆
        claimedDeltaIndices (FileMetadata.mk "f" 0 8192 "hB" [(0, "b0"), (1, "b1")])
          (FileMetadata.mk "f" 0 8192 "hA" [(0, "b0"), (1, "c1")])) := by
  decide

/-- Claim C1 (amended): for every local fingerprint and every cached remote
fingerprint whose whole digests differ, `calculate_delta` returns a plan of
type `delta` whose block-index list is ALL local block indices
`range (len local.blocks)` — the per-block digest comparison of the claim is
never performed (delta_sync.py line 316). -/
theorem calculate_delta_mismatch_sends_all_blocks
    (local_meta remote_meta : FileMetadata)
    (h : remote_meta.full_hash ≠ local_meta.full_hash) :
    calculate_delta local_meta (some remote_meta) =
      { type := "delta", full_hash := local_meta.full_hash
        size := local_meta.size
        blocks := List.range local_meta.blocks.length } := by
  simp [calculate_delta, h]

theorem calculate_delta_mismatch_sends_all_blocks_witness :
    (FileMetadata.mk "g" 0 4096 "hA" [(0, "c0")]).full_hash ≠
      (FileMetadata.mk "g" 0 4096 "hB" [(0, "b0")]).full_hash ∧
    calculate_delta (FileMetadata.mk "g" 0 4096 "hB" [(0, "b0")])
        (some (FileMetadata.mk "g" 0 4096 "hA" [(0, "c0")])) =
      { type := "delta"
        full_hash := (FileMetadata.mk "g" 0 4096 "hB" [(0, "b0")]).full_hash
        size := (FileMetadata.mk "g" 0 4096 "hB" [(0, "b0")]).size
        blocks := List.range
          (FileMetadata.mk "g" 0 4096 "hB" [(0, "b0")]).blocks.length } :=
  ⟨by decide,
   calculate_delta_mismatch_sends_all_blocks
     (FileMetadata.mk "g" 0 4096 "hB" [(0, "b0")])
     (FileMetadata.mk "g" 0 4096 "hA" [(0, "c0")]) (by decide)⟩

/-! ## Claim C2: delta round-trip -/

theorem from_file_full_hash (md5 : Bytes → String) (p : String) (mt : Int)
    (c : Bytes) (k : Nat) (hk : 0 < k) :
    (FileMetadata.from_file md5 p mt c k).full_hash = md5 c := by
  simp [FileMetadata.from_file, flatten_chunksOf k hk]

theorem from_file_blocks_length (md5 : Bytes → String) (p : String) (mt : Int)
    (c : Bytes) (k : Nat) :
    (FileMetadata.from_file md5 p mt c k).blocks.length =
      (chunksOf k c).length := by
  simp [FileMetadata.from_file, List.enum_length]

theorem from_file_size (md5 : Bytes → String) (p : String) (mt : Int)
    (c : Bytes) (k : Nat) :
    (FileMetadata.from_file md5 p mt c k).size = c.length := rfl

/-- Overlaying the chunks of `B` with indices `j, j+1, …` onto a state that
already agrees with `B` on its first `j * BLOCK_SIZE` bytes (and has the same
total length as `B`) reconstructs `B`. -/
theorem applyDeltaBlocks_reconstruct_aux (B : Bytes) :
    ∀ (n j : Nat) (S : Bytes),
      j + n = (chunksOf BLOCK_SIZE B).length →
      S.length = B.length - j * BLOCK_SIZE →
      applyDeltaBlocks (B.take (j * BLOCK_SIZE) ++ S)
        ((List.range' j n).map fun i => (i, chunkAt BLOCK_SIZE B i)) = B := by
  intro n
  induction n with
  | zero =>
    intro j S hj hS
    have hge : B.length ≤ j * BLOCK_SIZE := by
      have h := le_length_chunksOf_mul BLOCK_SIZE (by decide) B
      have hj0 : j = (chunksOf BLOCK_SIZE B).length := by omega
      rw [hj0]
      exact h
    have hS0 : S = [] := List.eq_nil_of_length_eq_zero (by omega)
    subst hS0
    simp [applyDeltaBlocks, List.take_of_length_le hge]
  | succ n ih =>
    intro j S hj hS
    have hjlt : j < (chunksOf BLOCK_SIZE B).length := by omega
    have hjk : j * BLOCK_SIZE < B.length :=
      chunksOf_index_lt BLOCK_SIZE (by decide) B j hjlt
    have hclen : (chunkAt BLOCK_SIZE B j).length
        = min BLOCK_SIZE (B.length - j * BLOCK_SIZE) := by
      simp [chunkAt, List.length_take, List.length_drop]
    have htklen : (B.take (j * BLOCK_SIZE)).length = j * BLOCK_SIZE := by
      simp [List.length_take]
      omega
    have hstep :
        overlayBlock (B.take (j * BLOCK_SIZE) ++ S) (j, chunkAt BLOCK_SIZE B j)
          = B.take ((j + 1) * BLOCK_SIZE)
              ++ S.drop (chunkAt BLOCK_SIZE B j).length := by
      have hXlen : (B.take (j * BLOCK_SIZE) ++ S).length = B.length := by
        simp only [List.length_append, htklen]
        omega
      have hcond : ¬ ((B.take (j * BLOCK_SIZE) ++ S).length
          < j * BLOCK_SIZE + (chunkAt BLOCK_SIZE B j).length) := by
        rw [hXlen]
        omega
      simp only [overlayBlock]
      rw [if_neg hcond]
      have h1 : (B.take (j * BLOCK_SIZE) ++ S).take (j * BLOCK_SIZE)
          = B.take (j * BLOCK_SIZE) := by
        rw [List.take_append_eq_append_take, htklen]
        simp [List.take_take]
      have h2 : (B.take (j * BLOCK_SIZE) ++ S).drop
            (j * BLOCK_SIZE + (chunkAt BLOCK_SIZE B j).length)
          = S.drop (chunkAt BLOCK_SIZE B j).length := by
        rw [List.drop_append_eq_append_drop, htklen]
        have hd : (B.take (j * BLOCK_SIZE)).drop
            (j * BLOCK_SIZE + (chunkAt BLOCK_SIZE B j).length) = [] := by
          apply List.drop_eq_nil_of_le
          rw [htklen]
          omega
        rw [hd]
        simp
      rw [h1, h2]
      have h3 : B.take (j * BLOCK_SIZE) ++ chunkAt BLOCK_SIZE B j
          = B.take ((j + 1) * BLOCK_SIZE) := by
        have hsm : (j + 1) * BLOCK_SIZE = j * BLOCK_SIZE + BLOCK_SIZE := by ring
        rw [hsm, List.take_add]
        rfl
      rw [← h3, List.append_assoc]
    rw [List.range'_succ, List.map_cons]
    show List.foldl overlayBlock _ _ = B
    rw [List.foldl_cons, hstep]
    have hS2 : (S.drop (chunkAt BLOCK_SIZE B j).length).length
        = B.length - (j + 1) * BLOCK_SIZE := by
      have hsm : (j + 1) * BLOCK_SIZE = j * BLOCK_SIZE + BLOCK_SIZE := by ring
      simp only [List.length_drop, hclen, hS, hsm]
      omega
    exact ih (j + 1) _ (by omega) hS2

/-- Overlaying all chunks of `B`, in index order, onto any equal-length
content reconstructs `B` exactly (the applier of remote_server.py lines
1290-1302 on the block set the planner ships). -/
theorem applyDeltaBlocks_reconstruct (A B : Bytes) (hlen : A.length = B.length) :
    applyDeltaBlocks A
      ((List.range (chunksOf BLOCK_SIZE B).length).map fun i =>
        (i, chunkAt BLOCK_SIZE B i)) = B := by
  have h := applyDeltaBlocks_reconstruct_aux B ((chunksOf BLOCK_SIZE B).length)
    0 A (by omega) (by omega)
  simpa [List.range_eq_range'] using h

/-- Claim C2: for any byte strings A and B of equal length sharing at least
one 4096-byte block (the digest being collision-free on {A, B}), computing
the plan of fingerprint(B) against the cached fingerprint(A), extracting the
planned blocks from B (`create_delta_payload`), and applying the resulting
delta payload with `process_delta_content` to a server file currently
containing A produces a file whose content is exactly B and whose
regenerated fingerprint equals the server fingerprint of B. -/
theorem delta_sync_roundtrip (md5 : Bytes → String) (A B : Bytes)
    (hlen : A.length = B.length)
    (hshare : ∃ (i : Nat) (c : Bytes), (chunksOf BLOCK_SIZE A)[i]? = some c ∧
                     (chunksOf BLOCK_SIZE B)[i]? = some c)
    (hinj : md5 A = md5 B → A = B)
    (lp rp : String) (lmt rmt mt : Int) :
    (delta_sync_pipeline md5 lp rp lmt rmt mt A B).2 = some B ∧
    ((delta_sync_pipeline md5 lp rp lmt rmt mt A B).1).isSuccess = true ∧
    ((delta_sync_pipeline md5 lp rp lmt rmt mt A B).1).metadata? =
      some (generate_file_metadata md5 rp mt B) := by
  have hk : 0 < BLOCK_SIZE := by decide
  by_cases hAB : md5 A = md5 B
  · have hABeq : A = B := hinj hAB
    subst hABeq
    simp [delta_sync_pipeline, calculate_delta,
          from_file_full_hash md5 lp lmt A BLOCK_SIZE hk,
          from_file_full_hash md5 rp rmt A BLOCK_SIZE hk,
          create_delta_payload, process_delta_content,
          DeltaResult.isSuccess, DeltaResult.metadata?]
  · have hBne : B ≠ [] := by
      obtain ⟨i, c, hA2, hB2⟩ := hshare
      intro h
      subst h
      simp [chunksOf_nil] at hB2
    have hnum : 0 < (chunksOf BLOCK_SIZE B).length := by
      cases B with
      | nil => exact absurd rfl hBne
      | cons b t =>
        rw [chunksOf_cons _ hk]
        simp
    have hplan : calculate_delta (FileMetadata.from_file md5 lp lmt B BLOCK_SIZE)
        (some (FileMetadata.from_file md5 rp rmt A BLOCK_SIZE)) =
        { type := "delta", full_hash := md5 B, size := B.length
          blocks := List.range (chunksOf BLOCK_SIZE B).length } := by
      have h1 := from_file_full_hash md5 lp lmt B BLOCK_SIZE hk
      have h2 := from_file_full_hash md5 rp rmt A BLOCK_SIZE hk
      simp [calculate_delta, h1, h2, hAB, from_file_blocks_length, from_file_size]
    have hrange_ne : List.range (chunksOf BLOCK_SIZE B).length ≠ [] := by
      rw [Ne, List.range_eq_nil]
      omega
    have hextract : extract_blocks BLOCK_SIZE B
        (List.range (chunksOf BLOCK_SIZE B).length)
        = (List.range (chunksOf BLOCK_SIZE B).length).map
            fun i => (i, chunkAt BLOCK_SIZE B i) :=
      extract_blocks_all BLOCK_SIZE hk B _ fun i hi => List.mem_range.mp hi
    have hmapne : ((List.range (chunksOf BLOCK_SIZE B).length).map
        fun i => (i, chunkAt BLOCK_SIZE B i)) ≠ [] := by
      intro h
      have hl := congrArg List.length h
      simp only [List.length_map, List.length_range, List.length_nil] at hl
      omega
    have happly : applyDeltaBlocks A
        ((List.range (chunksOf BLOCK_SIZE B).length).map
          fun i => (i, chunkAt BLOCK_SIZE B i)) = B :=
      applyDeltaBlocks_reconstruct A B hlen
    have hpayload : create_delta_payload B rp
        { type := "delta", full_hash := md5 B, size := B.length
          blocks := List.range (chunksOf BLOCK_SIZE B).length } =
        { path := rp, delta_type := "delta", full_hash := md5 B
          size := B.length
          blocks := some ((List.range (chunksOf BLOCK_SIZE B).length).map
            fun i => (i, chunkAt BLOCK_SIZE B i))
          content := none } := by
      simp [create_delta_payload, hrange_ne, hextract]
    simp only [delta_sync_pipeline, hplan, hpayload]
    simp [process_delta_content, hmapne, happly,
          DeltaResult.isSuccess, DeltaResult.metadata?]

theorem delta_sync_roundtrip_witness :
    ([0] : Bytes).length = ([0] : Bytes).length ∧
    (∃ (i : Nat) (c : Bytes), (chunksOf BLOCK_SIZE ([0] : Bytes))[i]? = some c ∧
            (chunksOf BLOCK_SIZE ([0] : Bytes))[i]? = some c) ∧
    (delta_sync_pipeline (fun _ => "h") "l" "r" 0 0 0 [0] [0]).2 = some [0] :=
  ⟨rfl, ⟨0, [0], by decide, by decide⟩,
   (delta_sync_roundtrip (fun _ => "h") [0] [0] rfl
      ⟨0, [0], by decide, by decide⟩ (fun _ => rfl) "l" "r" 0 0 0).1⟩

/-! ## Claims C3 and C4: the patch applier -/

/-- Claim C3 (code bug): `apply_git_patch` NEVER returns a success result and
never creates a commit — for every input, even a cleanly applying bundle on a
clean repository at a known base commit, the unqualified `tempfile` name at
remote_server.py line 460 raises `NameError` (the module never imports
`tempfile`; the import at line 560 is local to `apply_patch`), which the
generic handler at line 538 turns into an error result before any patch
application or commit; the success branch (lines 493-528) is additionally
dead because it tests `result["status"]` while `apply_patch` returns the key
"success".  The repository's own test
(tests/test_git_integration.py, `test_apply_patch`) asserts a success
result from this path. -/
theorem apply_git_patch_never_succeeds (inp : GitPatchInput) :
    (∀ commit, (apply_git_patch inp).result ≠ .ok commit) ∧
    (apply_git_patch inp).commitMessages = [] := by
  unfold apply_git_patch
  by_cases h1 : inp.gitAvailable
  · by_cases h2 : inp.repoExists
    · cases hp : inp.patchText with
      | none => simp [h1, h2, hp]
      | some t => simp [h1, h2, hp]
    · simp [h1, h2]
  · simp [h1]

/-- Claim C4 is FALSE as stated: on a repository with uncommitted changes,
`apply_git_patch` does not refuse with a DirtyTree error (none of its error
results carries that tag — the source's dirty-tree handling at lines 475-481
would auto-commit rather than refuse, and is unreachable anyway), and it DOES
modify the tree: the bundle's binary files are written before the failure. -/
theorem apply_git_patch_dirty_cex :
    (apply_git_patch
        { gitAvailable := true, repoExists := true, patchText := some "diff"
          binary_files := [{ path := some "b.bin", content := some "QQ==" }]
          base_commit := some "c0", baseCommitKnown := true, isDirty := true
          patchApplies := true }).result ≠ .error .dirtyTree ∧
    (apply_git_patch
        { gitAvailable := true, repoExists := true, patchText := some "diff"
          binary_files := [{ path := some "b.bin", content := some "QQ==" }]
          base_commit := some "c0", baseCommitKnown := true, isDirty := true
          patchApplies := true }).result = .error .uncaughtNameError ∧
    (apply_git_patch
        { gitAvailable := true, repoExists := true, patchText := some "diff"
          binary_files := [{ path := some "b.bin", content := some "QQ==" }]
          base_commit := some "c0", baseCommitKnown := true, isDirty := true
          patchApplies := true }).binariesWritten = ["b.bin"] := by
  decide

/-- Claim C4 (amended): for every patch-application request against a
repository whose working tree has uncommitted changes (git available, the
repository present, the patch decoding), `apply_git_patch` fails — with the
generic patch-application error produced by the `tempfile` NameError, not
with a DirtyTree-tagged refusal — creates no commit, and writes the bundle's
well-formed binary files into the working tree before failing. -/
theorem apply_git_patch_dirty_behavior (inp : GitPatchInput)
    (hgit : inp.gitAvailable = true) (hrepo : inp.repoExists = true)
    (hdec : ∃ t, inp.patchText = some t) (hdirty : inp.isDirty = true) :
    apply_git_patch inp =
      { result := .error .uncaughtNameError
        commitMessages := []
        binariesWritten := writtenBinaryPaths inp.binary_files } := by
  obtain ⟨t, ht⟩ := hdec
  simp [apply_git_patch, hgit, hrepo, ht]

theorem apply_git_patch_dirty_behavior_witness :
    apply_git_patch
        { gitAvailable := true, repoExists := true, patchText := some "p"
          binary_files := [], base_commit := none, baseCommitKnown := false
          isDirty := true, patchApplies := false } =
      { result := .error .uncaughtNameError
        commitMessages := []
        binariesWritten := writtenBinaryPaths [] } :=
  apply_git_patch_dirty_behavior
    { gitAvailable := true, repoExists := true, patchText := some "p"
      binary_files := [], base_commit := none, baseCommitKnown := false
      isDirty := true, patchApplies := false }
    rfl rfl ⟨"p", rfl⟩ rfl

/-! ## Claims C5 and C6: the command executor -/

/-- Claim C5 is FALSE as stated: for a command whose process outlives its
timeout budget, the record does become terminal with state `timeout` and a
`command_completed` notification is pushed — but the recorded `exit_code` is
`None`, not a non-zero integer: the timeout branch of `run_command`
(remote_server.py lines 1076-1082) never assigns `exit_code`. -/
theorem run_command_timeout_exit_code_cex :
    (run_command "c1" initialCommandRecord (.outlivesTimeout true [])).1.status
      = "timeout" ∧
    (run_command "c1" initialCommandRecord (.outlivesTimeout true [])).1.exit_code
      = none ∧
    (¬ ∃ n : Int,
      (run_command "c1" initialCommandRecord (.outlivesTimeout true [])).1.exit_code
        = some n ∧ n ≠ 0) ∧
    WsMessage.commandCompleted "c1" "timeout" none ∈
      (run_command "c1" initialCommandRecord (.outlivesTimeout true [])).2.1 := by
  refine ⟨rfl, rfl, ?_, ?_⟩
  · rintro ⟨n, hn, -⟩
    simp [run_command, initialCommandRecord] at hn
  · simp [run_command, initialCommandRecord, outputMessages]

/-- Claim C5 (amended): for every command whose process outlives its timeout
budget, `run_command` leaves the record terminal with state `timeout` and
pushes a `command_completed` notification after all output notifications —
but the recorded `exit_code` remains `None` (absent), not a non-zero
integer, and the pushed notification carries that `None`; the process is
first terminated and, if still alive after the ≈1 s grace sleep, killed. -/
theorem run_command_timeout_behavior (cid : String) (dies : Bool)
    (lines : List OutputLine) :
    run_command cid initialCommandRecord (.outlivesTimeout dies lines) =
      ({ status := "timeout", exit_code := none
         output := outputConcat lines, endTimeSet := true },
       outputMessages cid lines ++ [.commandCompleted cid "timeout" none],
       .terminate :: if dies then [] else [.kill]) := by
  simp only [run_command, initialCommandRecord, String.empty_append]

/-- Claim C6 is FALSE as stated: on the `failed` terminal transition caused
by a spawn failure, the except branch of `run_command` (remote_server.py
lines 1098-1103) broadcasts nothing at all — no `command_completed`
notification accompanies that terminal transition. -/
theorem run_command_spawn_failure_no_completion_cex :
    (run_command "c2" initialCommandRecord (.spawnFailure "boom")).1.status
      = "failed" ∧
    (run_command "c2" initialCommandRecord (.spawnFailure "boom")).2.1 = [] :=
  ⟨rfl, rfl⟩

/-- Claim C6 (amended): on the `completed` and `timeout` terminal
transitions, `run_command` broadcasts a final `command_completed`
notification carrying the command id, the terminal state, and the recorded
exit code, placed after every `command_output` notification of the command;
on the `failed` transition (spawn failure / internal error) NO notification
is broadcast at all. -/
theorem run_command_completion_broadcast (cid : String) :
    (∀ (code : Int) (lines : List OutputLine),
        (run_command cid initialCommandRecord (.exits code lines)).2.1 =
          outputMessages cid lines ++
            [.commandCompleted cid "completed" (some code)]) ∧
    (∀ (dies : Bool) (lines : List OutputLine),
        (run_command cid initialCommandRecord (.outlivesTimeout dies lines)).2.1 =
          outputMessages cid lines ++
            [.commandCompleted cid "timeout" none]) ∧
    (∀ msg : String,
        (run_command cid initialCommandRecord (.spawnFailure msg)).2.1 = []) :=
  ⟨fun _ _ => rfl, fun _ _ => rfl, fun _ => rfl⟩

/-! ## Claim C7: cache flush -/

/-- Claim C7 is FALSE on the code: `save_cache` performs no temp-file-plus-
rename rewrite (its operation sequence contains no rename at all), and there
is a moment — after the truncating open, before the write — at which the
cache file on disk holds neither the complete old snapshot nor the complete
new one (it is empty). -/
theorem save_cache_not_atomic_cex :
    ¬ atomicTempRename "cache.json" (save_cache_ops "cache.json" "NEW") ∧
    ∃ s ∈ fsStates (fun q => if q = "cache.json" then some "OLD" else none)
        (save_cache_ops "cache.json" "NEW"),
      s "cache.json" ≠ some "OLD" ∧ s "cache.json" ≠ some "NEW" := by
  constructor
  · rintro ⟨⟨tmp, htmp, hmem⟩, -⟩
    simp [save_cache_ops] at hmem
  · refine ⟨applyFsOp (fun q => if q = "cache.json" then some "OLD" else none)
      (.openTrunc "cache.json"), ?_, ?_, ?_⟩
    · simp [fsStates, save_cache_ops, List.scanl]
    · simp [applyFsOp]
    · simp [applyFsOp]

/-- Claim C7 (amended): `save_cache` rewrites the cache file IN PLACE — a
truncating open of the cache file itself followed by the write of the new
snapshot, with no temporary file and no rename; the final state holds
exactly the new snapshot, but between the truncate and the write the file is
empty rather than holding either complete snapshot. -/
theorem save_cache_in_place (cache_file serialized : String) (fs : FsState) :
    (∀ src dst : String,
        FsOp.rename src dst ∉ save_cache_ops cache_file serialized) ∧
    ((save_cache_ops cache_file serialized).foldl applyFsOp fs) cache_file
      = some serialized ∧
    (applyFsOp fs (FsOp.openTrunc cache_file)) cache_file = some "" := by
  refine ⟨?_, ?_, ?_⟩
  · intro src dst
    simp [save_cache_ops]
  · simp [save_cache_ops, applyFsOp]
  · simp [applyFsOp]

/-! ## Claim C8: whole-file write checksum -/

/-- Claim C8 is FALSE as stated: a write that supplies the EMPTY expected
digest "" — which no computed hex digest ever equals — is not rejected: the
truthiness test `if file_content.checksum:` treats "" like an absent digest,
skips verification, and the content is written with a success result. -/
theorem write_file_content_empty_checksum_cex :
    (fun _ : Bytes => "d41d8") ([7] : Bytes) ≠ "" ∧
    write_file_content (fun _ => "d41d8") 0 (some [1]) "p" [7] (some "") =
      (.ok "p" (generate_file_metadata (fun _ => "d41d8") "p" 0 [7]),
       some [7]) := by
  constructor
  · decide
  · rfl

/-- Claim C8 (amended): for every whole-file write that supplies a NONEMPTY
expected digest, if the computed digest of the decoded content differs from
it then `write_file_content` fails with a checksum-mismatch error and the
target file is unchanged; if they agree the content is written and the
recomputed fingerprint is returned.  (A supplied empty-string digest is
treated as absent by the source's truthiness test and skips verification.) -/
theorem write_file_content_checksum_behavior (md5 : Bytes → String) (mt : Int)
    (file : Option Bytes) (path : String) (content : Bytes) (c : String)
    (hc : c ≠ "") :
    (md5 content ≠ c →
      write_file_content md5 mt file path content (some c) =
        (.checksumMismatch c (md5 content), file)) ∧
    (md5 content = c →
      write_file_content md5 mt file path content (some c) =
        (.ok path (generate_file_metadata md5 path mt content),
         some content)) := by
  constructor
  · intro h
    simp [write_file_content, hc, h]
  · intro h
    simp [write_file_content, hc, h]

theorem write_file_content_checksum_behavior_witness :
    ("x" : String) ≠ "" ∧
    (fun _ : Bytes => "h") ([7] : Bytes) ≠ "x" ∧
    write_file_content (fun _ => "h") 0 (some [1]) "p" [7] (some "x") =
      (.checksumMismatch "x" "h", some [1]) :=
  ⟨by decide, by decide,
   (write_file_content_checksum_behavior (fun _ => "h") 0 (some [1]) "p" [7]
      "x" (by decide)).1 (by decide)⟩

/-! ## Claim C9: conflict listing -/

theorem conflictEntriesLoop_attr_error (fileExists : String → Bool) :
    ∀ cfs : List GitConflictFile, (∃ cf ∈ cfs, fileExists cf.path = true) →
      conflictEntriesLoop fileExists cfs = none
  | [], h => by simp at h
  | cf :: rest, h => by
    by_cases hex : fileExists cf.path
    · have hattr : cf.getAttr "content" = none := by
        simp [GitConflictFile.getAttr]
      simp [conflictEntriesLoop, hex, hattr]
    · obtain ⟨cf2, hmem, hcf2⟩ := h
      rcases List.mem_cons.mp hmem with heq | hmem2
      · subst heq
        exact absurd hcf2 (by simpa using hex)
      · simp only [conflictEntriesLoop, if_neg hex]
        exact conflictEntriesLoop_attr_error fileExists rest ⟨cf2, hmem2, hcf2⟩

/-- Claim C9 (code bug): whenever the server has recorded conflict entries
for a repository and at least one recorded file still exists on disk,
`get_conflicts` does NOT return the claimed success listing of paths with
their saved server-side content: the loop reads the attribute `cf.content`,
which the `GitConflictFile` model does not define (the saved bytes live in
`remote_content`, the field `apply_patch` fills), so an `AttributeError` is
raised and the handler returns an error result instead. -/
theorem get_conflicts_errors_on_existing_conflict
    (recordedList : List GitConflictFile) (fileExists : String → Bool)
    (hex : ∃ cf ∈ recordedList, fileExists cf.path = true) :
    get_conflicts true (some recordedList) fileExists =
      .error "failed to get conflict info: AttributeError: content" := by
  have hne : recordedList ≠ [] := by
    obtain ⟨cf, hmem, -⟩ := hex
    intro h
    subst h
    simp at hmem
  simp [get_conflicts, hne,
        conflictEntriesLoop_attr_error fileExists recordedList hex]

theorem get_conflicts_errors_on_existing_conflict_witness :
    get_conflicts true
        (some [{ path := "a.txt", remote_content := some "Mg==" }])
        (fun _ => true) =
      .error "failed to get conflict info: AttributeError: content" :=
  get_conflicts_errors_on_existing_conflict
    [{ path := "a.txt", remote_content := some "Mg==" }] (fun _ => true)
    ⟨{ path := "a.txt", remote_content := some "Mg==" }, by simp, rfl⟩

/-! ## Claim C10: local metadata cache round trip -/

theorem find?_overwrite {κ α : Type} [BEq κ] [LawfulBEq κ]
    (k k2 : κ) (v : α) (h : k ≠ k2) :
    ∀ m : List (κ × α),
      ((m.map fun kv => if kv.1 == k then (k, v) else kv).find?
        fun kv => kv.1 == k2) = m.find? fun kv => kv.1 == k2
  | [] => rfl
  | a :: t => by
    have hkk2 : (k == k2) = false := beq_eq_false_iff_ne.mpr h
    by_cases hak : (a.1 == k) = true
    · have hak' : a.1 = k := eq_of_beq hak
      have hak2 : (a.1 == k2) = false := by rw [hak']; exact hkk2
      simp only [List.map_cons, if_pos hak, List.find?_cons, hak2, hkk2]
      exact find?_overwrite k k2 v h t
    · simp only [List.map_cons, if_neg hak, List.find?_cons]
      by_cases hak2 : (a.1 == k2) = true
      · simp only [hak2]
      · have hak2' : (a.1 == k2) = false := by
          cases hb : (a.1 == k2)
          · rfl
          · exact absurd hb hak2
        simp only [hak2']
        exact find?_overwrite k k2 v h t

theorem find?_append_single {κ α : Type} [BEq κ] [LawfulBEq κ]
    (k k2 : κ) (v : α) (h : k ≠ k2) :
    ∀ m : List (κ × α),
      ((m ++ [(k, v)]).find? fun kv => kv.1 == k2)
        = m.find? fun kv => kv.1 == k2
  | [] => by
    have hkk2 : (k == k2) = false := beq_eq_false_iff_ne.mpr h
    simp only [List.nil_append, List.find?_cons, hkk2]
  | a :: t => by
    simp only [List.cons_append, List.find?_cons]
    by_cases hak2 : (a.1 == k2) = true
    · simp only [hak2]
    · have hak2' : (a.1 == k2) = false := by
        cases hb : (a.1 == k2)
        · rfl
        · exact absurd hb hak2
      simp only [hak2']
      exact find?_append_single k k2 v h t

/-- Inserting under a key distinct from the queried key leaves `dictGet`
unchanged, whether the insert overwrites in place or appends. -/
theorem dictGet_dictInsert_ne {κ α : Type} [BEq κ] [LawfulBEq κ]
    (m : List (κ × α)) (k k2 : κ) (v : α) (h : k ≠ k2) :
    dictGet (dictInsert m k v) k2 = dictGet m k2 := by
  unfold dictGet dictInsert
  by_cases hmem : m.any fun kv => kv.1 == k
  · rw [if_pos hmem, find?_overwrite k k2 v h m]
  · rw [if_neg hmem, find?_append_single k k2 v h m]

/-- Claim C10 is FALSE as stated: the stored key is NOT "the path string as
given" but its normalised spelling `str(Path(·))`, and the round-trip does
not fail for every path whose given spelling differs from its resolved form:
for `/a//b` (given spelling ≠ resolved form `/a/b`) the normalised stored
key coincides with the resolved lookup key, so `get_local_metadata` finds
the entry immediately after `update_local_metadata`. -/
theorem cache_roundtrip_spelling_cex :
    ("/a//b" : String) ≠ pathResolve "/w" "/a//b" ∧
    (((MetadataCache.mk [] []).update_local_metadata (fun _ => "h") "/a//b" 0
        [1] 4096).1).local_cache.map Prod.fst = ["/a/b"] ∧
    (((MetadataCache.mk [] []).update_local_metadata (fun _ => "h") "/a//b" 0
        [1] 4096).1).get_local_metadata "/w" "/a//b" ≠ none := by
  decide

/-- Claim C10 (amended): `update_local_metadata` stores the fingerprint
under the normalised spelling `str(Path(file_path))` (not resolved against
the working directory), while `get_local_metadata` looks up the fully
resolved absolute form `str(Path(file_path).resolve())`; consequently, for
any path whose NORMALISED spelling differs from its resolved form (for
example any relative path) and whose resolved form is not already cached,
`get_local_metadata` returns absent immediately after
`update_local_metadata` on the same string, and the re-fingerprint condition
of `calculate_delta` holds on every delta calculation. -/
theorem cache_roundtrip_miss (cache : MetadataCache) (md5 : Bytes → String)
    (cwd p : String) (mt : Int) (content : Bytes) (bs : Nat)
    (hne : pathNormalize p ≠ pathResolve cwd p)
    (habs : dictGet cache.local_cache (pathResolve cwd p) = none) :
    ((cache.update_local_metadata md5 p mt content bs).1).get_local_metadata
        cwd p = none ∧
    ∀ (fileOnDisk : Bool) (diskMtime : Int),
      calculate_delta_refreshes
        ((cache.update_local_metadata md5 p mt content bs).1) cwd p
        fileOnDisk diskMtime = true := by
  have hget : ((cache.update_local_metadata md5 p mt content bs).1).get_local_metadata
      cwd p = none := by
    show dictGet (dictInsert cache.local_cache
        (FileMetadata.from_file md5 p mt content bs).path
        (FileMetadata.from_file md5 p mt content bs)) (pathResolve cwd p) = none
    have hpath : (FileMetadata.from_file md5 p mt content bs).path
        = pathNormalize p := rfl
    rw [hpath, dictGet_dictInsert_ne _ _ _ _ hne]
    exact habs
  refine ⟨hget, ?_⟩
  intro fileOnDisk diskMtime
  simp [calculate_delta_refreshes, hget]

theorem cache_roundtrip_miss_witness :
    pathNormalize "a.txt" ≠ pathResolve "/w" "a.txt" ∧
    (((MetadataCache.mk [] []).update_local_metadata (fun _ => "h") "a.txt" 0
        [1] 4096).1).get_local_metadata "/w" "a.txt" = none :=
  ⟨by decide,
   (cache_roundtrip_miss (MetadataCache.mk [] []) (fun _ => "h") "/w" "a.txt"
      0 [1] 4096 (by decide) (by decide)).1⟩

end SyncMCP
